import Mathlib

/-!
Verification of `extract_audio_features.py` (Makam-Viz).

The script is a linear pipeline: decode an audio file to a mono sample
buffer `y` with sample rate `sr`, compute per-frame RMS and spectral
centroid with `window = 2048` and `hop = 512` (librosa's centered
framing: the buffer is padded by `window / 2` zeros on each side before
framing), detect onsets, build a shared time axis
`times[i] = i * hop / sr`, min-max normalize the two frame-rate
sequences, and serialize the record to JSON.

Sample values are modelled as exact field elements (`ℝ` for the full
pipeline, with computable `ℚ` instances for concrete evaluation where
the definitions are polymorphic).  A float NaN/Infinity produced by a
zero-denominator division is modelled as `none : Option α`; a finite
float value `v` is `some v`.
-/

namespace MakamViz

/-- `frame_length = 2048` in `librosa.feature.rms` / `n_fft` in the stft. -/
def window : ℕ := 2048

/-- `hop_length = 512`, shared by rms, stft, onset detection, `frames_to_time`. -/
def hop : ℕ := 512

variable {α : Type} [LinearOrderedField α]

/-- Centered framing pads the buffer by `window / 2` zeros on each side
(`center=True`, `pad_mode='constant'` in librosa). -/
def padCentered (y : List α) : List α :=
  List.replicate (window / 2) 0 ++ y ++ List.replicate (window / 2) 0

/-- Frame `j` of the padded buffer: `window` samples starting at `j * hop`. -/
def frame (y : List α) (j : ℕ) : List α :=
  ((padCentered y).drop (j * hop)).take window

/-- Number of full frames librosa's framing yields on the padded buffer:
`(paddedLen - window) / hop + 1` where `paddedLen = n + 2 * (window / 2)`. -/
def numFrames (n : ℕ) : ℕ :=
  ((n + 2 * (window / 2)) - window) / hop + 1

/-- Sum of squares of a frame (the numerator of the mean in `rms`). -/
def frameEnergy (y : List α) (j : ℕ) : α :=
  ((frame y j).map (fun x => x * x)).sum

/-- `librosa.feature.rms(y, frame_length=2048, hop_length=512)[0]`:
per-frame `sqrt(mean(x^2))` over the centered frames. -/
noncomputable def rmsValues (y : List ℝ) : List ℝ :=
  (List.range (numFrames y.length)).map
    (fun j => Real.sqrt (frameEnergy y j / (window : ℝ)))

/-- `np.min` over a nonempty array (junk value `0` for the empty array,
which never occurs in the pipeline: `numFrames n ≥ 1`). -/
def listMin : List α → α
  | [] => 0
  | x :: xs => xs.foldl min x

/-- `np.max` over a nonempty array (same junk convention as `listMin`). -/
def listMax : List α → α
  | [] => 0
  | x :: xs => xs.foldl max x

/-- Lines 31-32 of the script: naive min-max normalization
`(x - min) / (max - min)`.  When `max = min` the float division is
`0 / 0 = NaN` for every element; the NaN is modelled as `none`. -/
def normalizeSeq (xs : List α) : List (Option α) :=
  let mn := listMin xs
  let mx := listMax xs
  xs.map (fun x => if mx = mn then none else some ((x - mn) / (mx - mn)))

theorem normalizeSeq_length (xs : List α) : (normalizeSeq xs).length = xs.length := by
  simp [normalizeSeq]

/-- Periodic Hann window used by the stft: `0.5 - 0.5 cos(2 pi j / N)`. -/
noncomputable def hannWindow (j : ℕ) : ℝ :=
  1 / 2 - 1 / 2 * Real.cos (2 * Real.pi * j / (window : ℝ))

/-- Magnitude of DFT bin `k` of a (Hann-windowed) frame. -/
noncomputable def dftMagnitude (fr : List ℝ) (k : ℕ) : ℝ :=
  Complex.abs (∑ j in Finset.range window,
    ((hannWindow j * fr.getD j 0 : ℝ) : ℂ) *
      Complex.exp (-(2 * Real.pi * Complex.I * j * k) / (window : ℝ)))

/-- Frequency of DFT bin `k`: `k * sr / n_fft` (librosa `fft_frequencies`). -/
noncomputable def binFreq (sr k : ℕ) : ℝ := (k : ℝ) * (sr : ℝ) / (window : ℝ)

/-- `librosa.feature.spectral_centroid` on one frame: the
magnitude-weighted mean frequency over bins `0 .. n_fft/2`; an all-zero
(silent) frame is left unnormalized by `util.normalize`'s threshold and
yields centroid `0`. -/
noncomputable def centroidFrame (fr : List ℝ) (sr : ℕ) : ℝ :=
  let nBins := window / 2 + 1
  let total := ∑ k in Finset.range nBins, dftMagnitude fr k
  if total = 0 then 0
  else (∑ k in Finset.range nBins, binFreq sr k * dftMagnitude fr k) / total

/-- `librosa.feature.spectral_centroid(y=y, sr=sr)[0]`: one centroid per
stft frame; the stft shares `n_fft = 2048`, `hop = 512`, centered
framing with `rms`, so the frame count is the same `numFrames`. -/
noncomputable def centroidValues (y : List ℝ) (sr : ℕ) : List ℝ :=
  (List.range (numFrames y.length)).map (fun j => centroidFrame (frame y j) sr)

/-- Line 28 of the script:
`librosa.frames_to_time(np.arange(n), sr=sr, hop_length=512)`, i.e.
`times[i] = i * hop / sr`. -/
def frameTimes (sr n : ℕ) : List α :=
  (List.range n).map (fun i => ((i * hop : ℕ) : α) / (sr : α))

/-- `librosa.get_duration(y=y, sr=sr) = len(y) / sr`. -/
def bufferDuration (n sr : ℕ) : α := ((n : ℕ) : α) / (sr : α)

/-- Modelled from the spec: `librosa.onset.onset_detect` is library
code, not part of `src/`; spec section 4.3 describes the detector as a
frame-rate onset strength signal (rectified frame-to-frame energy
increase) whose local maxima above a threshold are selected as onset
frames.  The envelope has one entry per analysis frame (same
window/hop grid as the Frame Analyzer). -/
def onsetEnvelope (y : List α) : List α :=
  (List.range (numFrames y.length)).map
    (fun k => if k = 0 then frameEnergy y 0
              else max 0 (frameEnergy y k - frameEnergy y (k - 1)))

/-- Modelled from the spec: peak picking selects frames that are strict
local maxima of the strength envelope and exceed the (zero) noise
threshold; out-of-range neighbours count as silence. -/
def isPeak (env : List α) (k : ℕ) : Bool :=
  decide ((if k = 0 then (0 : α) else env.getD (k - 1) 0) < env.getD k 0) &&
    decide (env.getD (k + 1) 0 ≤ env.getD k 0) &&
    decide ((0 : α) < env.getD k 0)

/-- Modelled from the spec: the detector's selected frame indices, in
increasing order. -/
def onsetFrames (y : List α) : List ℕ :=
  (List.range (onsetEnvelope y).length).filter (fun k => isPeak (onsetEnvelope y) k)

/-- Modelled from the spec: line 25 of the script with `units='time'`
converts the selected frame indices to seconds on the same hop grid:
`t = k * hop / sr`. -/
def onsetTimes (y : List α) (sr : ℕ) : List α :=
  (onsetFrames y).map (fun k => ((k * hop : ℕ) : α) / (sr : α))

/-- One frame-rate feature in the output record: `values` (normalized,
`none` marking a non-finite float) and `times` (seconds). -/
structure FeatureSeq where
  values : List (Option ℝ)
  times : List ℝ

/-- The serialized Feature Record (the JSON object's payload). -/
structure FeatureRecord where
  duration : ℝ
  sample_rate : ℕ
  rms : FeatureSeq
  spectral_centroid : FeatureSeq
  onsets : List ℝ

/-- Lines 16-47 of the script: the full pipeline from a decoded buffer
to the assembled Feature Record.  The time axis is computed once (line
28) and reused for both features (lines 40 and 44). -/
noncomputable def extract_audio_features (y : List ℝ) (sr : ℕ) : FeatureRecord :=
  let rms := rmsValues y
  let spectral_centroid := centroidValues y sr
  let onset_frames := onsetTimes y sr
  let times : List ℝ := frameTimes sr rms.length
  { duration := bufferDuration y.length sr
    sample_rate := sr
    rms := { values := normalizeSeq rms, times := times }
    spectral_centroid := { values := normalizeSeq spectral_centroid, times := times }
    onsets := onset_frames }

/-- Result of the decoding stage (`librosa.load`): a buffer and a
sample rate, or a decoding failure (a raised exception). -/
inductive DecodeResult where
  | ok (y : List ℝ) (sr : ℕ)
  | err

/-- Observable outcome of one process invocation: the exit code and
whether the output file was created. -/
structure MainOutcome where
  exitCode : ℕ
  outputWritten : Bool
deriving DecidableEq

/-- Lines 59-71 of the script (`__main__`): wrong argument count exits
1 before anything else; a missing input path exits 1; a decoding
failure raises before the output file is opened, and CPython exits
with code 1 on an uncaught exception; on success the record is written
and the process exits 0. -/
def mainRun (argv : List String) (inputExists : Bool) (decode : DecodeResult) : MainOutcome :=
  if argv.length ≠ 3 then ⟨1, false⟩
  else if !inputExists then ⟨1, false⟩
  else
    match decode with
    | .err => ⟨1, false⟩
    | .ok _ _ => ⟨0, true⟩

theorem numFrames_eq (n : ℕ) : numFrames n = n / hop + 1 := by
  norm_num [numFrames, window, hop]

theorem rmsValues_length (y : List ℝ) : (rmsValues y).length = numFrames y.length := by
  simp [rmsValues]

theorem centroidValues_length (y : List ℝ) (sr : ℕ) :
    (centroidValues y sr).length = numFrames y.length := by
  simp [centroidValues]

theorem frameTimes_length (sr n : ℕ) : (frameTimes (α := α) sr n).length = n := by
  simp [frameTimes]

theorem frameEnergy_replicate_zero (n j : ℕ) :
    frameEnergy (List.replicate n (0 : α)) j = 0 := by
  simp [frameEnergy, frame, padCentered, ← List.replicate_add, List.drop_replicate,
    List.take_replicate, List.map_replicate, List.sum_replicate]

theorem rmsValues_silent : rmsValues (List.replicate 512 (0 : ℝ)) = [0, 0] := by
  have hr : List.range (numFrames (List.replicate 512 (0 : ℝ)).length) = [0, 1] := by
    rw [List.length_replicate, numFrames_eq]
    norm_num [hop]
    decide
  simp only [rmsValues, hr, List.map_cons, List.map_nil, frameEnergy_replicate_zero,
    zero_div, Real.sqrt_zero]

theorem frame_one : frame ([(1 : α)]) 0 =
    List.replicate 1024 0 ++ 1 :: List.replicate 1023 0 := by
  rw [frame, padCentered]
  simp only [window, hop, Nat.zero_mul, List.drop_zero]
  rw [List.take_append_eq_append_take, List.take_append_eq_append_take]
  simp only [List.take_replicate, List.length_append, List.length_replicate,
    List.length_cons, List.length_nil, List.take_cons, List.take_nil]
  norm_num

theorem frameEnergy_one : frameEnergy ([(1 : α)]) 0 = 1 := by
  rw [frameEnergy, frame_one]
  simp only [List.map_append, List.map_cons, List.map_nil, List.map_replicate,
    List.sum_append, List.sum_cons, List.sum_replicate, mul_zero, zero_mul, one_mul,
    smul_zero, add_zero, zero_add, List.sum_nil]

theorem numFrames_one : numFrames 1 = 1 := by
  rw [numFrames_eq]
  norm_num [hop]

theorem onsetEnvelope_one : onsetEnvelope ([(1 : α)]) = [1] := by
  have hr : List.range (numFrames ([(1 : α)]).length) = [0] := by
    rw [show ([(1 : α)]).length = 1 from rfl, numFrames_one]
    decide
  rw [onsetEnvelope, hr]
  simp [frameEnergy_one]

theorem onsetFrames_one : onsetFrames ([(1 : α)]) = [0] := by
  rw [onsetFrames, onsetEnvelope_one]
  simp [isPeak, zero_lt_one, zero_le_one, List.filter]

theorem onsetTimes_one : onsetTimes ([(1 : α)]) 2 = [0] := by
  rw [onsetTimes, onsetFrames_one]
  simp

theorem onsetEnvelope_length (y : List α) :
    (onsetEnvelope y).length = numFrames y.length := by
  simp [onsetEnvelope]

theorem onsetFrames_sorted (y : List α) : (onsetFrames y).Pairwise (· < ·) :=
  List.Pairwise.filter _ (List.pairwise_lt_range _)

theorem mem_onsetFrames_lt (y : List α) {k : ℕ} (hk : k ∈ onsetFrames y) :
    k < numFrames y.length := by
  have h1 := (List.mem_filter.mp hk).1
  have h2 := List.mem_range.mp h1
  rwa [onsetEnvelope_length] at h2

theorem hopTime_mono (sr : ℕ) {k l : ℕ} (h : k ≤ l) :
    ((k * hop : ℕ) : α) / (sr : α) ≤ ((l * hop : ℕ) : α) / (sr : α) := by
  rcases Nat.eq_zero_or_pos sr with h0 | h0
  · simp [h0]
  · have hc : (0 : α) < (sr : α) := by exact_mod_cast h0
    exact (div_le_div_iff_of_pos_right hc).mpr
      (by exact_mod_cast Nat.mul_le_mul_right hop h)

theorem onsetTimes_sorted (y : List α) (sr : ℕ) :
    (onsetTimes y sr).Pairwise (· ≤ ·) :=
  List.Pairwise.map _ (fun _ _ hab => hopTime_mono sr (le_of_lt hab))
    (onsetFrames_sorted y)

theorem onsetTimes_bounds (y : List α) (sr : ℕ) {t : α}
    (ht : t ∈ onsetTimes y sr) : 0 ≤ t ∧ t ≤ bufferDuration y.length sr := by
  rcases List.mem_map.mp ht with ⟨k, hk, rfl⟩
  constructor
  · exact div_nonneg (Nat.cast_nonneg _) (Nat.cast_nonneg _)
  · have hlt : k < numFrames y.length := mem_onsetFrames_lt y hk
    have hle : k * hop ≤ y.length := by
      have : k ≤ y.length / hop := by
        have := numFrames_eq y.length
        omega
      calc k * hop ≤ (y.length / hop) * hop := Nat.mul_le_mul_right hop this
        _ ≤ y.length := Nat.div_mul_le_self _ _
    rcases Nat.eq_zero_or_pos sr with h0 | h0
    · simp [bufferDuration, h0]
    · have hc : (0 : α) < (sr : α) := by exact_mod_cast h0
      exact (div_le_div_iff_of_pos_right hc).mpr (by exact_mod_cast hle)

theorem extract_onsets (y : List ℝ) (sr : ℕ) :
    (extract_audio_features y sr).onsets = onsetTimes y sr := rfl

theorem extract_duration (y : List ℝ) (sr : ℕ) :
    (extract_audio_features y sr).duration = bufferDuration y.length sr := rfl

theorem extract_rms_values (y : List ℝ) (sr : ℕ) :
    (extract_audio_features y sr).rms.values = normalizeSeq (rmsValues y) := rfl

theorem foldl_min_le_init (l : List α) (a : α) : l.foldl min a ≤ a := by
  induction l generalizing a with
  | nil => simp
  | cons b t ih => exact le_trans (ih (min a b)) (min_le_left a b)

theorem foldl_min_le_mem (l : List α) (a : α) {x : α} (hx : x ∈ l) :
    l.foldl min a ≤ x := by
  induction l generalizing a with
  | nil => cases hx
  | cons b t ih =>
    rcases List.mem_cons.mp hx with rfl | h
    · exact le_trans (foldl_min_le_init t (min a x)) (min_le_right a x)
    · exact ih (min a b) h

theorem init_le_foldl_max (l : List α) (a : α) : a ≤ l.foldl max a := by
  induction l generalizing a with
  | nil => simp
  | cons b t ih => exact le_trans (le_max_left a b) (ih (max a b))

theorem mem_le_foldl_max (l : List α) (a : α) {x : α} (hx : x ∈ l) :
    x ≤ l.foldl max a := by
  induction l generalizing a with
  | nil => cases hx
  | cons b t ih =>
    rcases List.mem_cons.mp hx with rfl | h
    · exact le_trans (le_max_right a x) (init_le_foldl_max t (max a x))
    · exact ih (max a b) h

theorem listMin_le_of_mem {xs : List α} {x : α} (hx : x ∈ xs) : listMin xs ≤ x := by
  rcases xs with _ | ⟨a, l⟩
  · cases hx
  · rcases List.mem_cons.mp hx with rfl | h
    · exact foldl_min_le_init l x
    · exact foldl_min_le_mem l a h

theorem le_listMax_of_mem {xs : List α} {x : α} (hx : x ∈ xs) : x ≤ listMax xs := by
  rcases xs with _ | ⟨a, l⟩
  · cases hx
  · rcases List.mem_cons.mp hx with rfl | h
    · exact init_le_foldl_max l x
    · exact mem_le_foldl_max l a h

/-- Claim C1: the spec requires the assembler to emit a defined, finite
fallback sequence when `max(values) = min(values)`.  The code instead
applies the naive formula, whose zero denominator yields NaN (modelled
`none`) for every element of a constant feature sequence such as the
all-zero RMS sequence of a silent input: the claim fails on the code. -/
theorem C1_constant_sequence_normalizes_to_nan :
    normalizeSeq (List.replicate 3 (0 : ℚ)) = List.replicate 3 none := by
  decide

/-- Claim C2 (counterexample): for a 2048-sample buffer the claimed
formula `floor((len - window)/hop) + 1` gives `1` frame, but the
pipeline's centered framing produces `5` frames. -/
theorem C2_counterexample :
    (rmsValues (List.replicate 2048 (0 : ℝ))).length ≠ (2048 - 2048) / 512 + 1 := by
  rw [rmsValues_length, List.length_replicate, numFrames_eq]
  norm_num [hop]

/-- Claim C2 (amended): the RMS and spectral-centroid sequences both
have `floor(len(buffer)/hop) + 1` frames (`hop = 512`), the frame count
of librosa's centered framing, which pads the buffer by `window / 2`
samples at each end. -/
theorem C2_frame_count (y : List ℝ) (sr : ℕ) :
    (rmsValues y).length = y.length / hop + 1 ∧
      (centroidValues y sr).length = y.length / hop + 1 := by
  simp [rmsValues_length, centroidValues_length, numFrames_eq]

/-- Claim C3: in the output record, `rms.values`, `rms.times`,
`spectral_centroid.values` and `spectral_centroid.times` all have the
same length, for every input buffer. -/
theorem C3_lengths_equal (y : List ℝ) (sr : ℕ) :
    (extract_audio_features y sr).rms.values.length =
        (extract_audio_features y sr).rms.times.length ∧
      (extract_audio_features y sr).spectral_centroid.values.length =
        (extract_audio_features y sr).spectral_centroid.times.length ∧
      (extract_audio_features y sr).rms.values.length =
        (extract_audio_features y sr).spectral_centroid.values.length := by
  simp [extract_audio_features, normalizeSeq_length, rmsValues_length,
    centroidValues_length, frameTimes_length]

/-- Claim C4: the assembler computes the time axis once and stores the
same sequence in `rms.times` and `spectral_centroid.times`; the two
fields are element-wise identical for every input buffer. -/
theorem C4_shared_time_axis (y : List ℝ) (sr : ℕ) :
    (extract_audio_features y sr).rms.times =
      (extract_audio_features y sr).spectral_centroid.times := rfl

/-- Claim C5: the spec requires normalized values in `[0, 1]` for
non-constant sequences and a finite documented fallback for the silent
(constant) case.  On a 512-sample silent buffer the code's RMS sequence
is constantly `0` and normalization produces NaN (`none`) for every
element, so the claim's silent-input clause fails on the code. -/
theorem C5_silent_input_rms_all_nan :
    (extract_audio_features (List.replicate 512 (0 : ℝ)) 22050).rms.values =
      [none, none] := by
  rw [extract_rms_values, rmsValues_silent]
  simp [normalizeSeq, listMin, listMax]

/-- Nearby true statement (not a claim): for a sequence whose max and
min differ, every normalized element is a finite value in `[0, 1]`. -/
theorem normalizeSeq_mem_unit_interval (xs : List α)
    (hne : listMax xs ≠ listMin xs) {v : Option α} (hv : v ∈ normalizeSeq xs) :
    ∃ q, v = some q ∧ 0 ≤ q ∧ q ≤ 1 := by
  rcases List.mem_map.mp hv with ⟨x, hx, rfl⟩
  have hxmem : listMin xs ≤ x ∧ x ≤ listMax xs :=
    ⟨listMin_le_of_mem hx, le_listMax_of_mem hx⟩
  have hlt : listMin xs < listMax xs :=
    lt_of_le_of_ne (le_trans hxmem.1 hxmem.2) (Ne.symm hne)
  have hden : 0 < listMax xs - listMin xs := sub_pos.mpr hlt
  refine ⟨(x - listMin xs) / (listMax xs - listMin xs), ?_, ?_, ?_⟩
  · simp [hne]
  · exact div_nonneg (sub_nonneg.mpr hxmem.1) (le_of_lt hden)
  · rw [div_le_one hden]
    exact sub_le_sub_right hxmem.2 _

/-- Claim C6: the onsets sequence of the output record is
non-decreasing and every onset timestamp lies in `[0, duration]`
(onset detector modelled from the spec). -/
theorem C6_onsets_sorted_and_bounded (y : List ℝ) (sr : ℕ) :
    (extract_audio_features y sr).onsets.Pairwise (· ≤ ·) ∧
      ∀ t ∈ (extract_audio_features y sr).onsets,
        0 ≤ t ∧ t ≤ (extract_audio_features y sr).duration := by
  rw [extract_onsets, extract_duration]
  exact ⟨onsetTimes_sorted y sr, fun _ ht => onsetTimes_bounds y sr ht⟩

/-- Witness for C6 at the one-sample buffer `[1]`, `sr = 2`, whose
onset list is `[0]`. -/
theorem C6_witness :
    (extract_audio_features [(1 : ℝ)] 2).onsets.Pairwise (· ≤ ·) ∧
      (0 ≤ (0 : ℝ) ∧ (0 : ℝ) ≤ (extract_audio_features [(1 : ℝ)] 2).duration) := by
  refine ⟨(C6_onsets_sorted_and_bounded [(1 : ℝ)] 2).1,
    (C6_onsets_sorted_and_bounded [(1 : ℝ)] 2).2 0 ?_⟩
  rw [extract_onsets, onsetTimes_one]
  exact List.mem_singleton.mpr rfl

/-- Claim C7: the pipeline is a pure function of the decoded buffer and
sample rate; every stage of the embedding is deterministic (no
randomness appears anywhere in the translated code), so equal inputs
yield identical records, hence byte-identical serializations. -/
theorem C7_deterministic (y1 y2 : List ℝ) (sr1 sr2 : ℕ)
    (hy : y1 = y2) (hsr : sr1 = sr2) :
    extract_audio_features y1 sr1 = extract_audio_features y2 sr2 := by
  rw [hy, hsr]

/-- Witness for C7 at a concrete buffer. -/
theorem C7_witness :
    extract_audio_features [(0 : ℝ)] 22050 = extract_audio_features [(0 : ℝ)] 22050 :=
  C7_deterministic [(0 : ℝ)] [(0 : ℝ)] 22050 22050 rfl rfl

/-- Claim C8: the shared time axis satisfies
`time[i] = i * hop / sample_rate` and its length equals the Frame
Analyzer's output length. -/
theorem C8_time_axis (y : List ℝ) (sr i : ℕ)
    (h : i < (extract_audio_features y sr).rms.times.length) :
    (extract_audio_features y sr).rms.times.get ⟨i, h⟩ =
        ((i * hop : ℕ) : ℝ) / (sr : ℝ) ∧
      (extract_audio_features y sr).rms.times.length = (rmsValues y).length := by
  constructor
  · show (frameTimes sr (rmsValues y).length).get ⟨i, h⟩ = _
    simp [frameTimes]
  · exact frameTimes_length sr _

/-- Witness for C8 at the empty buffer (one centered frame, so the time
axis is nonempty). -/
theorem C8_witness :
    (extract_audio_features ([] : List ℝ) 22050).rms.times.length =
      (rmsValues []).length :=
  (C8_time_axis [] 22050 0
    (by simp [extract_audio_features, frameTimes_length, rmsValues_length, numFrames_eq])).2

/-- Claim C9: wrong argument count and a missing input path exit with
code 1 and write nothing; a decoding failure aborts (CPython exits 1 on
the uncaught exception) before the output file is opened; on success
the record is written and the exit code is 0; the output file exists
only on the successful path. -/
theorem C9_exit_codes (argv : List String) (ex : Bool) (d : DecodeResult) :
    (argv.length ≠ 3 → mainRun argv ex d = ⟨1, false⟩) ∧
      (argv.length = 3 → ex = false → mainRun argv ex d = ⟨1, false⟩) ∧
      (∀ y sr, argv.length = 3 → ex = true → d = DecodeResult.ok y sr →
        mainRun argv ex d = ⟨0, true⟩) ∧
      (argv.length = 3 → ex = true → d = DecodeResult.err →
        mainRun argv ex d = ⟨1, false⟩) ∧
      ((mainRun argv ex d).outputWritten = true → (mainRun argv ex d).exitCode = 0) := by
  rcases d with ⟨y, sr⟩ | _ <;> by_cases h3 : argv.length = 3 <;> cases ex <;>
    simp [mainRun, h3]

/-- Witness for C9 covering all four invocation outcomes. -/
theorem C9_witness :
    mainRun ["extract_audio_features.py"] true DecodeResult.err = ⟨1, false⟩ ∧
      mainRun ["extract_audio_features.py", "in.wav", "out.json"] false
        DecodeResult.err = ⟨1, false⟩ ∧
      mainRun ["extract_audio_features.py", "in.wav", "out.json"] true
        DecodeResult.err = ⟨1, false⟩ ∧
      mainRun ["extract_audio_features.py", "in.wav", "out.json"] true
        (DecodeResult.ok [] 22050) = ⟨0, true⟩ :=
  ⟨(C9_exit_codes _ _ _).1 (by decide),
   (C9_exit_codes _ _ _).2.1 (by decide) rfl,
   (C9_exit_codes _ _ _).2.2.2.1 (by decide) rfl rfl,
   (C9_exit_codes _ _ _).2.2.1 [] 22050 (by decide) rfl rfl⟩

/-- Claim C10: every onset timestamp in the output record lies on the
frame/hop grid: it equals `k * hop / sample_rate` for some natural `k`
(onset detector modelled from the spec, frame-to-time conversion as in
`units='time'`). -/
theorem C10_onsets_on_hop_grid (y : List ℝ) (sr : ℕ) (t : ℝ)
    (ht : t ∈ (extract_audio_features y sr).onsets) :
    ∃ k : ℕ, t = ((k * hop : ℕ) : ℝ) / (sr : ℝ) := by
  rw [extract_onsets] at ht
  rcases List.mem_map.mp ht with ⟨k, _, rfl⟩
  exact ⟨k, rfl⟩

/-- Witness for C10 at the one-sample buffer `[1]`, `sr = 2`. -/
theorem C10_witness :
    ∃ k : ℕ, (0 : ℝ) = ((k * hop : ℕ) : ℝ) / ((2 : ℕ) : ℝ) :=
  C10_onsets_on_hop_grid [(1 : ℝ)] 2 0
    (by rw [extract_onsets, onsetTimes_one]; exact List.mem_singleton.mpr rfl)

end MakamViz
